import Mathlib

/-!
Verification of the survey application's computational-geometry kernel:
the per-triangle area calculator (`calculateTriangleResult`, `convertArea`)
and the ear-clipping polygon triangulator (`earClippingTriangulation`).

The embedding follows the TypeScript sources.  JavaScript numbers are
modelled exactly: the finite values that arise here are decimal literals
and rational arithmetic on them, modelled by `ℚ`; `NaN` (produced by
`parseFloat` on non-numeric input) is modelled by `none` in `Option ℚ`,
with the JavaScript comparison semantics (every comparison with `NaN` is
false).  The transcendental area formulas (square root, sine) are modelled
over `ℝ`.  The triangulator uses only rational arithmetic and comparisons,
so it is modelled executably over `ℚ`.
-/

namespace Survey

/-- `Point` from types.ts: a planar coordinate. -/
structure Point where
  x : ℚ
  y : ℚ
  deriving DecidableEq, Repr

/-- Default point used for (never-reached) out-of-range list accesses. -/
def pZero : Point := ⟨0, 0⟩

/-- A triangle emitted by the triangulator: `[Point, Point, Point]`. -/
abbrev Tri := Point × Point × Point

/-- geometry.ts `signedArea`: the determinant
`(p1.x - p3.x) * (p2.y - p3.y) - (p2.x - p3.x) * (p1.y - p3.y)`,
twice the (CCW-positive) signed area of the triangle. -/
def signedArea (p1 p2 p3 : Point) : ℚ :=
  (p1.x - p3.x) * (p2.y - p3.y) - (p2.x - p3.x) * (p1.y - p3.y)

/-- geometry.ts `isPointInTriangle`: same-sign-of-all-three-subtriangles test. -/
def isPointInTriangle (pt v1 v2 v3 : Point) : Bool :=
  let d1 := signedArea pt v1 v2
  let d2 := signedArea pt v2 v3
  let d3 := signedArea pt v3 v1
  let has_neg := decide (d1 < 0) || decide (d2 < 0) || decide (d3 < 0)
  let has_pos := decide (0 < d1) || decide (0 < d2) || decide (0 < d3)
  !(has_neg && has_pos)

/-- One term `p1.x * p2.y - p2.x * p1.y` of the shoelace accumulation loop in
`earClippingTriangulation`. -/
def cross2 (p q : Point) : ℚ := p.x * q.y - q.x * p.y

/-- Sum of `cross2` over consecutive (non-wrapping) pairs of the list:
the terms `i = 0 .. n-2` of the shoelace loop. -/
def pathSum : List Point → ℚ
  | [] => 0
  | [_] => 0
  | p :: q :: rest => cross2 p q + pathSum (q :: rest)

/-- The full shoelace accumulation loop of `earClippingTriangulation`:
`Σ_{i<n} (v_i.x * v_{(i+1)%n}.y - v_{(i+1)%n}.x * v_i.y)`.
The terms `i = 0 .. n-2` pair consecutive vertices (`pathSum`); the term
`i = n-1` pairs the last vertex with the first (the wrap-around of
`(i + 1) % n`). -/
def shoelaceSum (vs : List Point) : ℚ :=
  pathSum vs + cross2 (vs.getLastD pZero) (vs.headD pZero)

/-- The ear test of the scan at position `i` of `indices` inside the main
loop of `earClippingTriangulation`: the candidate triangle is
`(prev, curr, next)` under cyclic neighbouring in `indices`; it is an ear
when its `signedArea` is non-negative and no vertex of the full vertex
array other than the triangle's own three indices lies inside it. -/
def isEarAt (vertices : List Point) (indices : List ℕ) (i : ℕ) : Option Tri :=
  let len := indices.length
  let prev_i := indices.getD ((i + len - 1) % len) 0
  let curr_i := indices.getD i 0
  let next_i := indices.getD ((i + 1) % len) 0
  let p_prev := vertices.getD prev_i pZero
  let p_curr := vertices.getD curr_i pZero
  let p_next := vertices.getD next_i pZero
  if 0 ≤ signedArea p_prev p_curr p_next then
    if (List.range vertices.length).all (fun j =>
        decide (j = prev_i) || decide (j = curr_i) || decide (j = next_i) ||
        !(isPointInTriangle (vertices.getD j pZero) p_prev p_curr p_next)) then
      some (p_prev, p_curr, p_next)
    else none
  else none

/-- The per-pass scan of the main loop: the first position `i` (in scan
order `0, 1, …`) whose candidate is an ear, with its triangle. -/
def findEar (vertices : List Point) (indices : List ℕ) : Option (ℕ × Tri) :=
  (List.range indices.length).findSome? fun i =>
    (isEarAt vertices indices i).map fun t => (i, t)

/-- The `while (indices.length > 3 && iterations < polygon.length * 2)` loop
of `earClippingTriangulation`.  `fuel` is the number of iterations still
allowed by the safety cap (`polygon.length * 2 - iterations`); each pass
that finds an ear emits its triangle, removes the ear's middle index, and
continues; a pass that finds no ear stops early (the failsafe branch). -/
def clipLoop (vertices : List Point) :
    ℕ → List ℕ → List Tri → List ℕ × List Tri
  | 0, indices, triangles => (indices, triangles)
  | fuel + 1, indices, triangles =>
    if 3 < indices.length then
      match findEar vertices indices with
      | some (i, t) => clipLoop vertices fuel (indices.eraseIdx i) (triangles ++ [t])
      | none => (indices, triangles)
    else (indices, triangles)

/-- geometry.ts `earClippingTriangulation`.  Returns `[]` for fewer than 3
points; otherwise computes the shoelace sum and reverses the vertex order
when it is positive, runs the ear-removal loop over an index list, and
finally pushes the triangle of the first three remaining indices. -/
def earClippingTriangulation (polygon : List Point) : List Tri :=
  if polygon.length < 3 then []
  else
    let vertices := if 0 < shoelaceSum polygon then polygon.reverse else polygon
    let indices := List.range vertices.length
    let res := clipLoop vertices (2 * polygon.length) indices []
    res.2 ++ [(vertices.getD (res.1.getD 0 0) pZero,
               vertices.getD (res.1.getD 1 0) pZero,
               vertices.getD (res.1.getD 2 0) pZero)]

/-- Unsigned area of an emitted triangle, `|signedArea| / 2`. -/
def triArea (t : Tri) : ℚ := |signedArea t.1 t.2.1 t.2.2| / 2

/-! ## JavaScript numbers

The calculator receives user-typed strings and parses them with
`parseFloat`, which yields either a finite decimal value (exact in `ℚ`
for the arithmetic the validity predicates perform) or `NaN`.  `NaN` is
modelled as `none`; every JavaScript comparison involving `NaN` is false. -/

/-- A JavaScript number: `none` is `NaN`. -/
abbrev JSNum := Option ℚ

/-- JavaScript `+` (NaN-propagating). -/
def jadd : JSNum → JSNum → JSNum
  | some a, some b => some (a + b)
  | _, _ => none

/-- JavaScript `-` (NaN-propagating). -/
def jsub : JSNum → JSNum → JSNum
  | some a, some b => some (a - b)
  | _, _ => none

/-- JavaScript `*` (NaN-propagating). -/
def jmul : JSNum → JSNum → JSNum
  | some a, some b => some (a * b)
  | _, _ => none

/-- JavaScript `Math.abs` (NaN-propagating). -/
def jabs : JSNum → JSNum
  | some a => some |a|
  | none => none

/-- JavaScript `<`: false when either side is `NaN`. -/
def jlt : JSNum → JSNum → Bool
  | some a, some b => decide (a < b)
  | _, _ => false

/-- JavaScript `<=`: false when either side is `NaN`. -/
def jle : JSNum → JSNum → Bool
  | some a, some b => decide (a ≤ b)
  | _, _ => false

/-- JavaScript `>`: false when either side is `NaN`. -/
def jgt : JSNum → JSNum → Bool
  | some a, some b => decide (b < a)
  | _, _ => false

/-- Digit-run parser used by `parseFloat`: consumes leading decimal digits,
returning the accumulated value, the number of digits consumed, and the
remaining characters. -/
def parseDigits : List Char → ℕ → ℕ → ℕ × ℕ × List Char
  | [], acc, cnt => (acc, cnt, [])
  | ch :: cs, acc, cnt =>
    if ch.isDigit then parseDigits cs (10 * acc + (ch.toNat - 48)) (cnt + 1)
    else (acc, cnt, ch :: cs)

/-- Optionally signed digit run (the exponent of a decimal literal);
`none` when no digit follows the optional sign. -/
def parseSignedDigits (cs : List Char) : Option (ℤ × List Char) :=
  match cs with
  | '+' :: rest =>
    let r := parseDigits rest 0 0
    if r.2.1 = 0 then none else some ((r.1 : ℤ), r.2.2)
  | '-' :: rest =>
    let r := parseDigits rest 0 0
    if r.2.1 = 0 then none else some (-(r.1 : ℤ), r.2.2)
  | _ =>
    let r := parseDigits cs 0 0
    if r.2.1 = 0 then none else some ((r.1 : ℤ), r.2.2)

/-- The discrete phase of `parseFloat`: skip leading whitespace, an
optional sign, then the longest prefix that is a decimal mantissa
(`Digits ('.' Digits?)? | '.' Digits`) with an optional integer exponent.
Returns the sign, the integer part, the fractional part with its digit
count, and the exponent; `none` when no numeric prefix exists. -/
def parseFloatRaw (s : String) : Option (Bool × ℕ × ℕ × ℕ × ℤ) :=
  let cs := s.data.dropWhile Char.isWhitespace
  let sr : Bool × List Char :=
    match cs with
    | '-' :: r => (true, r)
    | '+' :: r => (false, r)
    | _ => (false, cs)
  let i := parseDigits sr.2 0 0
  match i with
  | (ip, icnt, rest) =>
    let fm : Option (ℕ × ℕ × List Char) :=
      match rest with
      | '.' :: cs2 =>
        let f := parseDigits cs2 0 0
        if icnt = 0 && f.2.1 = 0 then none else some (f.1, f.2.1, f.2.2)
      | _ => if icnt = 0 then none else some (0, 0, rest)
    match fm with
    | none => none
    | some (fp, fcnt, rest2) =>
      let e : ℤ :=
        match rest2 with
        | 'e' :: r => (match parseSignedDigits r with | some p => p.1 | none => 0)
        | 'E' :: r => (match parseSignedDigits r with | some p => p.1 | none => 0)
        | _ => 0
      some (sr.1, ip, fp, fcnt, e)

/-- JavaScript `parseFloat`, modelled for finite decimal notation: the
decimal prefix found by `parseFloatRaw`, assembled into its exact rational
value; when no numeric prefix exists the result is `NaN` (`none`).  (The
`Infinity` and hexadecimal spellings never denote finite user measurements
and are not modelled.) -/
def parseFloat (s : String) : JSNum :=
  match parseFloatRaw s with
  | none => none
  | some (neg, ip, fp, fcnt, e) =>
    let v := ((ip : ℚ) + (fp : ℚ) / (10 : ℚ) ^ fcnt) * (10 : ℚ) ^ e
    some (if neg then -v else v)

/-! ## Units, methods and the data model -/

/-- types.ts `Unit`: `'m' | 'ft' | 'in'` (`in` is a Lean keyword, so the
inches case is spelled `inch`). -/
inductive Unit where
  | m
  | ft
  | inch
  deriving DecidableEq, Repr

/-- constants.ts `CONVERSION_FACTORS` (factor to meters). -/
def CONVERSION_FACTORS : Unit → ℚ
  | Unit.m => 1
  | Unit.ft => 0.3048
  | Unit.inch => 0.0254

/-- types.ts `CalculationMethod`. -/
inductive CalculationMethod where
  | SSS
  | SAS
  | ASA
  | BaseHeight
  | Coordinates
  deriving DecidableEq, Repr

/-- types.ts `TriangleInputs`: the named fields are optional numeric
strings (`undefined` is `none`). -/
structure TriangleInputs where
  a : Option String := none
  b : Option String := none
  c : Option String := none
  sideA : Option String := none
  sideB : Option String := none
  angleC : Option String := none
  angleA : Option String := none
  angleB : Option String := none
  sideC : Option String := none
  base : Option String := none
  height : Option String := none
  p1x : Option String := none
  p1y : Option String := none
  p2x : Option String := none
  p2y : Option String := none
  p3x : Option String := none
  p3y : Option String := none
  deriving DecidableEq, Repr

/-- types.ts `Triangle`: a triangle specification. -/
structure Triangle where
  id : ℤ
  method : CalculationMethod
  inputs : TriangleInputs
  deriving DecidableEq, Repr

/-- types.ts `CalculationResult`. -/
structure CalculationResult where
  id : ℤ
  index : ℤ
  method : CalculationMethod
  inputs : TriangleInputs
  area : ℝ
  isValid : Bool
  areaInMeters : ℝ

/-- The JavaScript idiom `inputs.f || '0'`: an absent (`undefined`) or
empty string falls back to `"0"`. -/
def orZero : Option String → String
  | none => "0"
  | some s => if s = "" then "0" else s

/-! ## Validation functions (calculations.ts) -/

/-- calculations.ts `isSSSValid`. -/
def isSSSValid (a b c : JSNum) : Bool :=
  if jle a (some 0) || jle b (some 0) || jle c (some 0) then false
  else jgt (jadd a b) c && jgt (jadd a c) b && jgt (jadd b c) a

/-- calculations.ts `isSASValid`. -/
def isSASValid (sideA sideB angleC : JSNum) : Bool :=
  jgt sideA (some 0) && jgt sideB (some 0) && jgt angleC (some 0) &&
    jlt angleC (some 180)

/-- calculations.ts `isASAValid`. -/
def isASAValid (angleA angleB sideC : JSNum) : Bool :=
  jgt angleA (some 0) && jgt angleB (some 0) && jgt sideC (some 0) &&
    jlt (jadd angleA angleB) (some 180)

/-- calculations.ts `isBaseHeightValid`. -/
def isBaseHeightValid (base height : JSNum) : Bool :=
  jgt base (some 0) && jgt height (some 0)

/-- calculations.ts `areCoordinatesValid`: the shoelace area must exceed
the collinearity epsilon `1e-9`. -/
def areCoordinatesValid (p1x p1y p2x p2y p3x p3y : JSNum) : Bool :=
  let area := jmul (some (0.5 : ℚ))
    (jabs (jadd (jadd (jmul p1x (jsub p2y p3y)) (jmul p2x (jsub p3y p1y)))
      (jmul p3x (jsub p1y p2y))))
  jgt area (some (1e-9 : ℚ))

/-! ## Area formulas (calculations.ts)

The formulas are evaluated over `ℝ` (square root and sine are exact real
functions here; the source uses double-precision approximations of the
same functions).  Each formula is guarded by its validity predicate, as in
the source; under a true guard no argument is `NaN`, so reading a `NaN`
as `0` in `jreal` never affects a guarded value. -/

/-- The finite value of a JavaScript number, as a real (`NaN` reads as 0;
only ever evaluated under a validity guard that excludes `NaN`). -/
noncomputable def jreal (x : JSNum) : ℝ := ((x.getD 0 : ℚ) : ℝ)

/-- calculations.ts `degToRad`. -/
noncomputable def degToRad (degrees : ℝ) : ℝ := degrees * (Real.pi / 180)

/-- calculations.ts `calculateAreaSSS` (Heron's formula). -/
noncomputable def calculateAreaSSS (a b c : JSNum) : ℝ :=
  if isSSSValid a b c then
    let a' := jreal a
    let b' := jreal b
    let c' := jreal c
    let s := (a' + b' + c') / 2
    Real.sqrt (s * (s - a') * (s - b') * (s - c'))
  else 0

/-- calculations.ts `calculateAreaSAS`. -/
noncomputable def calculateAreaSAS (sideA sideB angleC : JSNum) : ℝ :=
  if isSASValid sideA sideB angleC then
    0.5 * jreal sideA * jreal sideB * Real.sin (degToRad (jreal angleC))
  else 0

/-- calculations.ts `calculateAreaASA`. -/
noncomputable def calculateAreaASA (angleA angleB sideC : JSNum) : ℝ :=
  if isASAValid angleA angleB sideC then
    let angleC' := 180 - jreal angleA - jreal angleB
    let sideA' := (jreal sideC * Real.sin (degToRad (jreal angleA))) /
      Real.sin (degToRad angleC')
    0.5 * sideA' * jreal sideC * Real.sin (degToRad (jreal angleB))
  else 0

/-- calculations.ts `calculateAreaBaseHeight`. -/
noncomputable def calculateAreaBaseHeight (base height : JSNum) : ℝ :=
  if isBaseHeightValid base height then
    0.5 * jreal base * jreal height
  else 0

/-- calculations.ts `calculateAreaCoordinates` (shoelace formula). -/
noncomputable def calculateAreaCoordinates (p1x p1y p2x p2y p3x p3y : JSNum) : ℝ :=
  if areCoordinatesValid p1x p1y p2x p2y p3x p3y then
    0.5 * |jreal p1x * (jreal p2y - jreal p3y) + jreal p2x * (jreal p3y - jreal p1y)
      + jreal p3x * (jreal p1y - jreal p2y)|
  else 0

/-! ## Master dispatcher and area conversion (calculations.ts) -/

/-- calculations.ts `calculateTriangleResult`: parse the method's fields
(`parseFloat(inputs.f || '0')`), validate, and fill `area`/`areaInMeters`
only when validation succeeds (they stay `0` otherwise). -/
noncomputable def calculateTriangleResult (triangle : Triangle) (unit : Unit)
    (index : ℤ) : CalculationResult :=
  let factor := CONVERSION_FACTORS unit
  match triangle.method with
  | CalculationMethod.SSS =>
    let a := parseFloat (orZero triangle.inputs.a)
    let b := parseFloat (orZero triangle.inputs.b)
    let c := parseFloat (orZero triangle.inputs.c)
    let isValid := isSSSValid a b c
    { id := triangle.id, index := index, method := triangle.method,
      inputs := triangle.inputs,
      area := if isValid then calculateAreaSSS a b c else 0,
      isValid := isValid,
      areaInMeters := if isValid then
        calculateAreaSSS (jmul a (some factor)) (jmul b (some factor))
          (jmul c (some factor)) else 0 }
  | CalculationMethod.SAS =>
    let sideA := parseFloat (orZero triangle.inputs.sideA)
    let sideB := parseFloat (orZero triangle.inputs.sideB)
    let angleC := parseFloat (orZero triangle.inputs.angleC)
    let isValid := isSASValid sideA sideB angleC
    { id := triangle.id, index := index, method := triangle.method,
      inputs := triangle.inputs,
      area := if isValid then calculateAreaSAS sideA sideB angleC else 0,
      isValid := isValid,
      areaInMeters := if isValid then
        calculateAreaSAS sideA sideB angleC * ((factor : ℝ)) * ((factor : ℝ)) else 0 }
  | CalculationMethod.ASA =>
    let angleA := parseFloat (orZero triangle.inputs.angleA)
    let angleB := parseFloat (orZero triangle.inputs.angleB)
    let sideC := parseFloat (orZero triangle.inputs.sideC)
    let isValid := isASAValid angleA angleB sideC
    { id := triangle.id, index := index, method := triangle.method,
      inputs := triangle.inputs,
      area := if isValid then calculateAreaASA angleA angleB sideC else 0,
      isValid := isValid,
      areaInMeters := if isValid then
        calculateAreaASA angleA angleB sideC * ((factor : ℝ)) * ((factor : ℝ)) else 0 }
  | CalculationMethod.BaseHeight =>
    let base := parseFloat (orZero triangle.inputs.base)
    let height := parseFloat (orZero triangle.inputs.height)
    let isValid := isBaseHeightValid base height
    { id := triangle.id, index := index, method := triangle.method,
      inputs := triangle.inputs,
      area := if isValid then calculateAreaBaseHeight base height else 0,
      isValid := isValid,
      areaInMeters := if isValid then
        calculateAreaBaseHeight base height * ((factor : ℝ)) * ((factor : ℝ)) else 0 }
  | CalculationMethod.Coordinates =>
    let p1x := parseFloat (orZero triangle.inputs.p1x)
    let p1y := parseFloat (orZero triangle.inputs.p1y)
    let p2x := parseFloat (orZero triangle.inputs.p2x)
    let p2y := parseFloat (orZero triangle.inputs.p2y)
    let p3x := parseFloat (orZero triangle.inputs.p3x)
    let p3y := parseFloat (orZero triangle.inputs.p3y)
    let isValid := areCoordinatesValid p1x p1y p2x p2y p3x p3y
    { id := triangle.id, index := index, method := triangle.method,
      inputs := triangle.inputs,
      area := if isValid then calculateAreaCoordinates p1x p1y p2x p2y p3x p3y else 0,
      isValid := isValid,
      areaInMeters := if isValid then
        calculateAreaCoordinates p1x p1y p2x p2y p3x p3y * ((factor : ℝ)) * ((factor : ℝ))
      else 0 }

/-- calculations.ts `convertArea`: identity when the units coincide,
otherwise scale by the square of the ratio of the factors. -/
noncomputable def convertArea (areaInMeters : ℝ) (fromUnit toUnit : Unit) : ℝ :=
  if fromUnit = toUnit then areaInMeters
  else
    let fromFactor : ℝ := ((CONVERSION_FACTORS fromUnit : ℚ) : ℝ)
    let toFactor : ℝ := ((CONVERSION_FACTORS toUnit : ℚ) : ℝ)
    areaInMeters * (fromFactor / toFactor) * (fromFactor / toFactor)

/-! ## Concrete example inputs used in the theorems below -/

/-- The convex quadrilateral (0,0), (2,0), (2,2), (0,2). -/
def quadEx : List Point := [⟨0, 0⟩, ⟨2, 0⟩, ⟨2, 2⟩, ⟨0, 2⟩]

/-- SSS specification with sides 1, 1, 3 (violates the triangle inequality). -/
def sss113 : Triangle :=
  ⟨0, CalculationMethod.SSS, { a := some ("1"), b := some ("1"), c := some ("3") }⟩

/-- SSS specification with sides 3, 4, 5. -/
def sss345 : Triangle :=
  ⟨0, CalculationMethod.SSS, { a := some ("3"), b := some ("4"), c := some ("5") }⟩

/-- SSS specification whose `a` field is unset. -/
def sssUnsetA : Triangle :=
  ⟨0, CalculationMethod.SSS, { b := some ("4"), c := some ("5") }⟩

/-- Coordinates specification whose `p1x` field is unset but which still
describes a non-degenerate triangle (0,5), (4,0), (0,0) once the unset
field defaults to 0. -/
def coordUnset : Triangle :=
  ⟨0, CalculationMethod.Coordinates,
    { p1y := some ("5"), p2x := some ("4"), p2y := some ("0"),
      p3x := some ("0"), p3y := some ("0") }⟩

/-- Coordinates specification whose `p1x` field holds the unparsable
string `"abc"`. -/
def coordAbc : Triangle :=
  ⟨0, CalculationMethod.Coordinates,
    { p1x := some ("abc"), p1y := some ("5"), p2x := some ("4"),
      p2y := some ("0"), p3x := some ("0"), p3y := some ("0") }⟩

/-- `coordAbc` with the unparsable field replaced by the string `"0"`. -/
def coordAbc0 : Triangle :=
  ⟨0, CalculationMethod.Coordinates,
    { p1x := some ("0"), p1y := some ("5"), p2x := some ("4"),
      p2y := some ("0"), p3x := some ("0"), p3y := some ("0") }⟩

/-- Base-and-height specification with base 2 and height 3. -/
def baseHeight23 : Triangle :=
  ⟨0, CalculationMethod.BaseHeight, { base := some ("2"), height := some ("3") }⟩

/-- Replace an absent (`undefined`) or empty optional string by `"0"`. -/
def fillF (o : Option String) : Option String :=
  match o with
  | none => some ("0")
  | some s => if s = "" then some ("0") else some s

/-- Replace every absent or empty input field by the string `"0"`. -/
def fillZero (inp : TriangleInputs) : TriangleInputs :=
  { a := fillF inp.a, b := fillF inp.b, c := fillF inp.c,
    sideA := fillF inp.sideA, sideB := fillF inp.sideB, angleC := fillF inp.angleC,
    angleA := fillF inp.angleA, angleB := fillF inp.angleB, sideC := fillF inp.sideC,
    base := fillF inp.base, height := fillF inp.height,
    p1x := fillF inp.p1x, p1y := fillF inp.p1y, p2x := fillF inp.p2x,
    p2y := fillF inp.p2y, p3x := fillF inp.p3x, p3y := fillF inp.p3y }

/-! ## NaN propagation and evaluation lemmas -/

@[simp] lemma jadd_none_left (x : JSNum) : jadd none x = none := by cases x <;> rfl

@[simp] lemma jadd_none_right (x : JSNum) : jadd x none = none := by cases x <;> rfl

@[simp] lemma jsub_none_left (x : JSNum) : jsub none x = none := by cases x <;> rfl

@[simp] lemma jsub_none_right (x : JSNum) : jsub x none = none := by cases x <;> rfl

@[simp] lemma jmul_none_left (x : JSNum) : jmul none x = none := by cases x <;> rfl

@[simp] lemma jmul_none_right (x : JSNum) : jmul x none = none := by cases x <;> rfl

@[simp] lemma jlt_none_left (x : JSNum) : jlt none x = false := by cases x <;> rfl

@[simp] lemma jlt_none_right (x : JSNum) : jlt x none = false := by cases x <;> rfl

@[simp] lemma jle_none_left (x : JSNum) : jle none x = false := by cases x <;> rfl

@[simp] lemma jle_none_right (x : JSNum) : jle x none = false := by cases x <;> rfl

@[simp] lemma jgt_none_left (x : JSNum) : jgt none x = false := by cases x <;> rfl

@[simp] lemma jgt_none_right (x : JSNum) : jgt x none = false := by cases x <;> rfl

@[simp] lemma jabs_none : jabs none = none := rfl

@[simp] lemma jreal_some (q : ℚ) : jreal (some q) = (q : ℝ) := by simp [jreal]

lemma parseFloat_nat (s : String) (n : ℕ)
    (h : parseFloatRaw s = some (false, n, 0, 0, 0)) : parseFloat s = some (n : ℚ) := by
  simp [parseFloat, h]

lemma parseFloat_zero : parseFloat ("0") = some 0 := by
  have h := parseFloat_nat ("0") 0 (by decide)
  simpa using h

lemma parseFloat_orZero_none : parseFloat (orZero none) = some 0 := by
  have h : orZero none = ("0") := rfl
  rw [h, parseFloat_zero]

lemma orZero_fillF (o : Option String) : orZero (fillF o) = orZero o := by
  cases o with
  | none => rfl
  | some s =>
    by_cases h : s = ("")
    · simp [fillF, orZero, h]
    · simp [fillF, orZero, h]

/-- Characterization of `isSSSValid` on finite values. -/
lemma isSSSValid_some (a b c : ℚ) :
    isSSSValid (some a) (some b) (some c) = true ↔
      0 < a ∧ 0 < b ∧ 0 < c ∧ c < a + b ∧ b < a + c ∧ a < b + c := by
  simp [isSSSValid, jle, jgt, jadd]
  tauto

/-! ## Claim theorems -/

/-- C8: `convertArea(x, u, u)` returns `x` exactly, for every area value
`x` and every unit `u` — the equal-units branch short-circuits before any
arithmetic. -/
theorem convertArea_same_unit (x : ℝ) (u : Unit) : convertArea x u u = x := by
  simp [convertArea]

/-- C5: `calculateTriangleResult` is total (the embedding is a function,
mirroring the source, which raises no error on any input), and whenever
the result has `isValid = false` its `area` and `areaInMeters` are `0`:
both fields start at `0` and are only assigned under the validity guard. -/
theorem invalid_result_has_zero_areas (t : Triangle) (u : Unit) (i : ℤ)
    (h : (calculateTriangleResult t u i).isValid = false) :
    (calculateTriangleResult t u i).area = 0 ∧
      (calculateTriangleResult t u i).areaInMeters = 0 := by
  obtain ⟨id, method, inputs⟩ := t
  cases method <;> simp only [calculateTriangleResult] at h ⊢ <;> simp [h]

/-- Witness for C5 at a concrete invalid input (SSS with `a` unset). -/
theorem invalid_result_has_zero_areas_witness :
    (calculateTriangleResult sssUnsetA Unit.m 0).isValid = false ∧
    (calculateTriangleResult sssUnsetA Unit.m 0).area = 0 ∧
      (calculateTriangleResult sssUnsetA Unit.m 0).areaInMeters = 0 := by
  have h : (calculateTriangleResult sssUnsetA Unit.m 0).isValid = false := by
    simp only [sssUnsetA, calculateTriangleResult, parseFloat_orZero_none]
    norm_num [isSSSValid, jle]
  exact ⟨h, invalid_result_has_zero_areas sssUnsetA Unit.m 0 h⟩

/-- C6: an SSS specification validates exactly when the parsed sides are
positive and satisfy the strict triangle inequality, and sides (1,1,3)
give `isValid = false` with `area = 0`. -/
theorem sss_validity_characterization :
    (∀ (t : Triangle) (u : Unit) (i : ℤ) (a b c : ℚ),
      t.method = CalculationMethod.SSS →
      parseFloat (orZero t.inputs.a) = some a →
      parseFloat (orZero t.inputs.b) = some b →
      parseFloat (orZero t.inputs.c) = some c →
      ((calculateTriangleResult t u i).isValid = true ↔
        0 < a ∧ 0 < b ∧ 0 < c ∧ c < a + b ∧ b < a + c ∧ a < b + c)) ∧
    (calculateTriangleResult sss113 Unit.m 0).isValid = false ∧
    (calculateTriangleResult sss113 Unit.m 0).area = 0 := by
  refine ⟨?_, ?_⟩
  · intro t u i a b c hm ha hb hc
    simp only [calculateTriangleResult, hm, ha, hb, hc]
    exact isSSSValid_some a b c
  · have h1 : parseFloat (orZero (some ("1"))) = some 1 := by
      have h := parseFloat_nat ("1") 1 (by decide)
      simpa [orZero] using h
    have h3 : parseFloat (orZero (some ("3"))) = some 3 := by
      have h := parseFloat_nat ("3") 3 (by decide)
      simpa [orZero] using h
    have hv : (calculateTriangleResult sss113 Unit.m 0).isValid = false := by
      simp only [sss113, calculateTriangleResult, h1, h3]
      norm_num [isSSSValid, jle, jgt, jadd]
    refine ⟨hv, ?_⟩
    simp only [sss113, calculateTriangleResult] at hv ⊢
    simp [hv]

/-- Witness for C6 at the concrete valid sides (3,4,5). -/
theorem sss_validity_characterization_witness :
    sss345.method = CalculationMethod.SSS ∧
    parseFloat (orZero sss345.inputs.a) = some 3 ∧
    parseFloat (orZero sss345.inputs.b) = some 4 ∧
    parseFloat (orZero sss345.inputs.c) = some 5 ∧
    ((calculateTriangleResult sss345 Unit.m 0).isValid = true ↔
      0 < (3 : ℚ) ∧ 0 < (4 : ℚ) ∧ 0 < (5 : ℚ) ∧
        (5 : ℚ) < 3 + 4 ∧ (4 : ℚ) < 3 + 5 ∧ (3 : ℚ) < 4 + 5) := by
  have ha : parseFloat (orZero sss345.inputs.a) = some 3 := by
    have h := parseFloat_nat ("3") 3 (by decide)
    simpa [sss345, orZero] using h
  have hb : parseFloat (orZero sss345.inputs.b) = some 4 := by
    have h := parseFloat_nat ("4") 4 (by decide)
    simpa [sss345, orZero] using h
  have hc : parseFloat (orZero sss345.inputs.c) = some 5 := by
    have h := parseFloat_nat ("5") 5 (by decide)
    simpa [sss345, orZero] using h
  exact ⟨rfl, ha, hb, hc,
    sss_validity_characterization.1 sss345 Unit.m 0 3 4 5 rfl ha hb hc⟩

/-- C1: the code's actual behavior on the convex quadrilateral
(0,0), (2,0), (2,2), (0,2).  The winding normalization reverses on a
positive shoelace sum — the opposite of its own comment (`if negative,
it's clockwise`) — leaving the working polygon clockwise while the ear
test `signedArea ≥ 0` expects counter-clockwise, so no ear is ever found:
the function returns one triangle of total area 2 instead of the claimed
n−2 = 2 triangles of total area 4. -/
theorem earClip_convex_quad_code_behavior :
    earClippingTriangulation quadEx = [(⟨0, 2⟩, ⟨2, 2⟩, ⟨2, 0⟩)] ∧
    (earClippingTriangulation quadEx).length = 1 ∧
    ((earClippingTriangulation quadEx).map triArea).sum = 2 := by
  have h : earClippingTriangulation quadEx = [(⟨0, 2⟩, ⟨2, 2⟩, ⟨2, 0⟩)] := by
    norm_num [quadEx, earClippingTriangulation, clipLoop, findEar, isEarAt,
      isPointInTriangle, signedArea, shoelaceSum, pathSum, cross2, pZero,
      List.range_succ]
  refine ⟨h, by rw [h]; rfl, ?_⟩
  rw [h]
  norm_num [triArea, signedArea]

/-- C2 counterexample: a Coordinates specification with `p1x` unset still
validates, because the unset coordinate defaults to 0 and the resulting
triangle (0,5), (4,0), (0,0) has area 10 > 1e-9. -/
theorem unset_field_can_validate_cex :
    coordUnset.inputs.p1x = none ∧
    (calculateTriangleResult coordUnset Unit.m 0).isValid = true := by
  refine ⟨rfl, ?_⟩
  have h5 : parseFloat (orZero (some ("5"))) = some 5 := by
    have h := parseFloat_nat ("5") 5 (by decide)
    simpa [orZero] using h
  have h4 : parseFloat (orZero (some ("4"))) = some 4 := by
    have h := parseFloat_nat ("4") 4 (by decide)
    simpa [orZero] using h
  have h0 : parseFloat (orZero (some ("0"))) = some 0 := by
    have h := parseFloat_nat ("0") 0 (by decide)
    simpa [orZero] using h
  simp only [coordUnset, calculateTriangleResult, h5, h4, h0, parseFloat_orZero_none]
  norm_num [areCoordinatesValid, jmul, jsub, jadd, jabs, jgt]

/-- C2 (amended): for the SSS, SAS, ASA and BaseHeight methods, an unset
field among those the method uses forces `isValid = false` (the field
defaults to 0, which every such validity predicate rejects); the
Coordinates method is excluded — see `unset_field_can_validate_cex`. -/
theorem unset_field_invalidates_nonCoordinates (t : Triangle) (u : Unit) (i : ℤ)
    (h : (t.method = CalculationMethod.SSS ∧
            (t.inputs.a = none ∨ t.inputs.b = none ∨ t.inputs.c = none)) ∨
         (t.method = CalculationMethod.SAS ∧
            (t.inputs.sideA = none ∨ t.inputs.sideB = none ∨ t.inputs.angleC = none)) ∨
         (t.method = CalculationMethod.ASA ∧
            (t.inputs.angleA = none ∨ t.inputs.angleB = none ∨ t.inputs.sideC = none)) ∨
         (t.method = CalculationMethod.BaseHeight ∧
            (t.inputs.base = none ∨ t.inputs.height = none))) :
    (calculateTriangleResult t u i).isValid = false := by
  rcases h with ⟨hm, hf | hf | hf⟩ | ⟨hm, hf | hf | hf⟩ | ⟨hm, hf | hf | hf⟩ | ⟨hm, hf | hf⟩ <;>
    simp only [calculateTriangleResult, hm, hf, parseFloat_orZero_none] <;>
    norm_num [isSSSValid, isSASValid, isASAValid, isBaseHeightValid, jle, jgt, jlt]

/-- Witness for the amended C2 at a concrete SSS spec with `a` unset. -/
theorem unset_field_invalidates_nonCoordinates_witness :
    (sssUnsetA.method = CalculationMethod.SSS ∧ sssUnsetA.inputs.a = none) ∧
    (calculateTriangleResult sssUnsetA Unit.m 0).isValid = false :=
  ⟨⟨rfl, rfl⟩,
    unset_field_invalidates_nonCoordinates sssUnsetA Unit.m 0 (Or.inl ⟨rfl, Or.inl rfl⟩)⟩

/-- C3 counterexample: an unparsable field is parsed to NaN, not 0.  The
Coordinates spec with `p1x = "abc"` fails validation, while the same spec
with `"abc"` replaced by `"0"` validates, so the two results differ. -/
theorem unparsable_field_not_zero_cex :
    (calculateTriangleResult coordAbc Unit.m 0).isValid = false ∧
    (calculateTriangleResult coordAbc0 Unit.m 0).isValid = true ∧
    calculateTriangleResult coordAbc Unit.m 0 ≠ calculateTriangleResult coordAbc0 Unit.m 0 := by
  have habc : parseFloat (orZero (some ("abc"))) = none := by
    have h : parseFloatRaw ("abc") = none := by decide
    simp [orZero, parseFloat, h]
  have h5 : parseFloat (orZero (some ("5"))) = some 5 := by
    have h := parseFloat_nat ("5") 5 (by decide)
    simpa [orZero] using h
  have h4 : parseFloat (orZero (some ("4"))) = some 4 := by
    have h := parseFloat_nat ("4") 4 (by decide)
    simpa [orZero] using h
  have h0 : parseFloat (orZero (some ("0"))) = some 0 := by
    have h := parseFloat_nat ("0") 0 (by decide)
    simpa [orZero] using h
  have hFalse : (calculateTriangleResult coordAbc Unit.m 0).isValid = false := by
    simp only [coordAbc, calculateTriangleResult, habc, h5, h4, h0]
    simp [areCoordinatesValid]
  have hTrue : (calculateTriangleResult coordAbc0 Unit.m 0).isValid = true := by
    simp only [coordAbc0, calculateTriangleResult, h5, h4, h0]
    norm_num [areCoordinatesValid, jmul, jsub, jadd, jabs, jgt]
  refine ⟨hFalse, hTrue, fun heq => ?_⟩
  have := congrArg CalculationResult.isValid heq
  rw [hFalse, hTrue] at this
  exact Bool.noConfusion this

lemma factor_pos (u : Unit) : 0 < CONVERSION_FACTORS u := by
  cases u <;> norm_num [CONVERSION_FACTORS]

lemma isSSSValid_elim {a b c : JSNum} (h : isSSSValid a b c = true) :
    ∃ qa qb qc, a = some qa ∧ b = some qb ∧ c = some qc ∧
      0 < qa ∧ 0 < qb ∧ 0 < qc ∧ qc < qa + qb ∧ qb < qa + qc ∧ qa < qb + qc := by
  cases a with
  | none => simp [isSSSValid] at h
  | some qa =>
    cases b with
    | none => simp [isSSSValid] at h
    | some qb =>
      cases c with
      | none => simp [isSSSValid] at h
      | some qc =>
        rw [isSSSValid_some] at h
        exact ⟨qa, qb, qc, rfl, rfl, rfl, h.1, h.2.1, h.2.2.1, h.2.2.2.1,
          h.2.2.2.2.1, h.2.2.2.2.2⟩

/-- C7: for a valid SSS specification, `areaInMeters` (computed by
re-running Heron's formula on the factor-scaled sides) equals `area`
times the square of the unit's to-meters factor — Heron's formula is
homogeneous of degree 2, and `√(f⁴·X) = f²·√X` for `f > 0`. -/
theorem sss_areaInMeters_unit_scaling (t : Triangle) (u : Unit) (i : ℤ)
    (hm : t.method = CalculationMethod.SSS)
    (hv : (calculateTriangleResult t u i).isValid = true) :
    (calculateTriangleResult t u i).areaInMeters
      = (calculateTriangleResult t u i).area * ((CONVERSION_FACTORS u : ℚ) : ℝ) ^ 2 := by
  simp only [calculateTriangleResult, hm] at hv ⊢
  obtain ⟨qa, qb, qc, ha, hb, hc, hpa, hpb, hpc, t1, t2, t3⟩ := isSSSValid_elim hv
  rw [ha, hb, hc] at hv ⊢
  have hf : 0 < CONVERSION_FACTORS u := factor_pos u
  have hv' : isSSSValid (some (qa * CONVERSION_FACTORS u))
      (some (qb * CONVERSION_FACTORS u)) (some (qc * CONVERSION_FACTORS u)) = true := by
    rw [isSSSValid_some]
    refine ⟨mul_pos hpa hf, mul_pos hpb hf, mul_pos hpc hf, ?_, ?_, ?_⟩
    · have h1 := mul_lt_mul_of_pos_right t1 hf
      rw [add_mul] at h1
      exact h1
    · have h1 := mul_lt_mul_of_pos_right t2 hf
      rw [add_mul] at h1
      exact h1
    · have h1 := mul_lt_mul_of_pos_right t3 hf
      rw [add_mul] at h1
      exact h1
  rw [if_pos hv, if_pos hv]
  simp only [jmul]
  simp only [calculateAreaSSS, if_pos hv', if_pos hv]
  simp only [jreal_some]
  push_cast
  set F : ℝ := ((CONVERSION_FACTORS u : ℚ) : ℝ) with hF
  have hFpos : (0 : ℝ) < F := by rw [hF]; exact_mod_cast hf
  have key : ∀ X Y : ℝ, X = (F ^ 2) ^ 2 * Y → Real.sqrt X = Real.sqrt Y * F ^ 2 := by
    intro X Y hXY
    rw [hXY, Real.sqrt_mul (by positivity), Real.sqrt_sq (by positivity), mul_comm]
  apply key
  ring

/-- Witness for C7 at the concrete (3,4,5) triangle measured in feet. -/
theorem sss_areaInMeters_unit_scaling_witness :
    sss345.method = CalculationMethod.SSS ∧
    (calculateTriangleResult sss345 Unit.ft 0).isValid = true ∧
    (calculateTriangleResult sss345 Unit.ft 0).areaInMeters
      = (calculateTriangleResult sss345 Unit.ft 0).area
          * ((CONVERSION_FACTORS Unit.ft : ℚ) : ℝ) ^ 2 := by
  have ha : parseFloat (orZero sss345.inputs.a) = some 3 := by
    have h := parseFloat_nat ("3") 3 (by decide)
    simpa [sss345, orZero] using h
  have hb : parseFloat (orZero sss345.inputs.b) = some 4 := by
    have h := parseFloat_nat ("4") 4 (by decide)
    simpa [sss345, orZero] using h
  have hc : parseFloat (orZero sss345.inputs.c) = some 5 := by
    have h := parseFloat_nat ("5") 5 (by decide)
    simpa [sss345, orZero] using h
  have hv : (calculateTriangleResult sss345 Unit.ft 0).isValid = true := by
    simp only [calculateTriangleResult, show sss345.method = CalculationMethod.SSS from rfl,
      ha, hb, hc]
    rw [isSSSValid_some]
    norm_num
  exact ⟨rfl, hv, sss_areaInMeters_unit_scaling sss345 Unit.ft 0 rfl hv⟩

/-- C3 (amended): absent (and empty) fields are treated as the value 0 —
replacing each absent or empty field by the string `"0"` leaves the
computed `isValid`, `area` and `areaInMeters` unchanged for every method,
unit and index.  (Unparsable fields are NOT treated as 0: they parse to
NaN and always fail validation, see `unparsable_field_not_zero_cex`;
and the verbatim-echoed `inputs` field of the result of course differs.) -/
theorem absent_or_empty_fields_as_zero (t : Triangle) (u : Unit) (i : ℤ) :
    (calculateTriangleResult ⟨t.id, t.method, fillZero t.inputs⟩ u i).isValid
        = (calculateTriangleResult t u i).isValid ∧
    (calculateTriangleResult ⟨t.id, t.method, fillZero t.inputs⟩ u i).area
        = (calculateTriangleResult t u i).area ∧
    (calculateTriangleResult ⟨t.id, t.method, fillZero t.inputs⟩ u i).areaInMeters
        = (calculateTriangleResult t u i).areaInMeters := by
  obtain ⟨id, method, inputs⟩ := t
  cases method <;>
    simp [calculateTriangleResult, fillZero, orZero_fillF]

lemma isSASValid_elim {a b c : JSNum} (h : isSASValid a b c = true) :
    ∃ qa qb qc, a = some qa ∧ b = some qb ∧ c = some qc ∧
      0 < qa ∧ 0 < qb ∧ 0 < qc ∧ qc < 180 := by
  cases a with
  | none => simp [isSASValid] at h
  | some qa =>
    cases b with
    | none => simp [isSASValid] at h
    | some qb =>
      cases c with
      | none => simp [isSASValid] at h
      | some qc =>
        simp only [isSASValid, jgt, jlt, Bool.and_eq_true, decide_eq_true_eq] at h
        exact ⟨qa, qb, qc, rfl, rfl, rfl, h.1.1.1, h.1.1.2, h.1.2, h.2⟩

lemma isASAValid_elim {a b c : JSNum} (h : isASAValid a b c = true) :
    ∃ qa qb qc, a = some qa ∧ b = some qb ∧ c = some qc ∧
      0 < qa ∧ 0 < qb ∧ 0 < qc ∧ qa + qb < 180 := by
  cases a with
  | none => simp [isASAValid] at h
  | some qa =>
    cases b with
    | none => simp [isASAValid] at h
    | some qb =>
      cases c with
      | none => simp [isASAValid] at h
      | some qc =>
        simp only [isASAValid, jgt, jlt, jadd, Bool.and_eq_true, decide_eq_true_eq] at h
        exact ⟨qa, qb, qc, rfl, rfl, rfl, h.1.1.1, h.1.1.2, h.1.2, h.2⟩

lemma isBaseHeightValid_elim {a b : JSNum} (h : isBaseHeightValid a b = true) :
    ∃ qa qb, a = some qa ∧ b = some qb ∧ 0 < qa ∧ 0 < qb := by
  cases a with
  | none => simp [isBaseHeightValid] at h
  | some qa =>
    cases b with
    | none => simp [isBaseHeightValid] at h
    | some qb =>
      simp only [isBaseHeightValid, jgt, Bool.and_eq_true, decide_eq_true_eq] at h
      exact ⟨qa, qb, rfl, rfl, h.1, h.2⟩

lemma areCoordinatesValid_lt {x1 y1 x2 y2 x3 y3 : JSNum}
    (h : areCoordinatesValid x1 y1 x2 y2 x3 y3 = true) :
    (1e-9 : ℝ) < 0.5 * |jreal x1 * (jreal y2 - jreal y3) + jreal x2 * (jreal y3 - jreal y1)
      + jreal x3 * (jreal y1 - jreal y2)| := by
  cases x1 <;> cases y1 <;> cases x2 <;> cases y2 <;> cases x3 <;> cases y3 <;>
    simp only [areCoordinatesValid, jmul_none_left, jmul_none_right, jsub_none_left,
      jsub_none_right, jadd_none_left, jadd_none_right, jabs_none, jgt_none_left,
      jgt_none_right, Bool.false_eq_true] at h
  case some.some.some.some.some.some q1 q2 q3 q4 q5 q6 =>
    simp only [jmul, jsub, jadd, jabs, jgt, decide_eq_true_eq] at h
    simp only [jreal_some]
    have h2 : ((1e-9 : ℚ) : ℝ) <
        (((0.5 : ℚ) * |q1 * (q4 - q6) + q3 * (q6 - q2) + q5 * (q2 - q4)| : ℚ) : ℝ) := by
      exact_mod_cast h
    push_cast at h2
    convert h2 using 2

lemma sin_degToRad_pos {θ : ℝ} (h0 : 0 < θ) (h180 : θ < 180) :
    0 < Real.sin (degToRad θ) := by
  have hpi := Real.pi_pos
  apply Real.sin_pos_of_pos_of_lt_pi
  · have : 0 < Real.pi / 180 := by positivity
    exact mul_pos h0 this
  · have h1 : degToRad θ < 180 * (Real.pi / 180) := by
      apply mul_lt_mul_of_pos_right h180
      positivity
    have h2 : (180 : ℝ) * (Real.pi / 180) = Real.pi := by field_simp
    linarith


/-- C10: whenever `calculateTriangleResult` returns `isValid = true`, the
returned `area` is strictly positive, and for the Coordinates method it
exceeds the collinearity epsilon `1e-9`.  Validity puts every parsed input
in the region where the method's formula is strictly positive (positive
Heron radicand, positive sines for in-range angles, positive products,
shoelace area above the epsilon). -/
theorem valid_implies_positive_area (t : Triangle) (u : Unit) (i : ℤ)
    (h : (calculateTriangleResult t u i).isValid = true) :
    0 < (calculateTriangleResult t u i).area ∧
    (t.method = CalculationMethod.Coordinates →
      (1e-9 : ℝ) < (calculateTriangleResult t u i).area) := by
  obtain ⟨id, method, inputs⟩ := t
  cases method with
  | SSS =>
    simp only [calculateTriangleResult] at h ⊢
    obtain ⟨qa, qb, qc, ha, hb, hc, hpa, hpb, hpc, t1, t2, t3⟩ := isSSSValid_elim h
    rw [ha, hb, hc] at h ⊢
    refine ⟨?_, fun hx => absurd hx (by decide)⟩
    rw [if_pos h]
    simp only [calculateAreaSSS, if_pos h, jreal_some]
    apply Real.sqrt_pos.mpr
    have A1 : (0 : ℝ) < (qa : ℝ) := by exact_mod_cast hpa
    have B1 : (0 : ℝ) < (qb : ℝ) := by exact_mod_cast hpb
    have C1 : (0 : ℝ) < (qc : ℝ) := by exact_mod_cast hpc
    have T1 : (qc : ℝ) < (qa : ℝ) + (qb : ℝ) := by exact_mod_cast t1
    have T2 : (qb : ℝ) < (qa : ℝ) + (qc : ℝ) := by exact_mod_cast t2
    have T3 : (qa : ℝ) < (qb : ℝ) + (qc : ℝ) := by exact_mod_cast t3
    have f1 : (0 : ℝ) < ((qa : ℝ) + (qb : ℝ) + (qc : ℝ)) / 2 := by linarith
    have f2 : (0 : ℝ) < ((qa : ℝ) + (qb : ℝ) + (qc : ℝ)) / 2 - (qa : ℝ) := by linarith
    have f3 : (0 : ℝ) < ((qa : ℝ) + (qb : ℝ) + (qc : ℝ)) / 2 - (qb : ℝ) := by linarith
    have f4 : (0 : ℝ) < ((qa : ℝ) + (qb : ℝ) + (qc : ℝ)) / 2 - (qc : ℝ) := by linarith
    exact mul_pos (mul_pos (mul_pos f1 f2) f3) f4
  | SAS =>
    simp only [calculateTriangleResult] at h ⊢
    obtain ⟨qa, qb, qc, ha, hb, hc, hpa, hpb, hpc, hc180⟩ := isSASValid_elim h
    rw [ha, hb, hc] at h ⊢
    refine ⟨?_, fun hx => absurd hx (by decide)⟩
    rw [if_pos h]
    simp only [calculateAreaSAS, if_pos h, jreal_some]
    have A1 : (0 : ℝ) < (qa : ℝ) := by exact_mod_cast hpa
    have B1 : (0 : ℝ) < (qb : ℝ) := by exact_mod_cast hpb
    have C0 : (0 : ℝ) < (qc : ℝ) := by exact_mod_cast hpc
    have C180 : (qc : ℝ) < 180 := by exact_mod_cast hc180
    have hsin := sin_degToRad_pos C0 C180
    exact mul_pos (mul_pos (mul_pos (by norm_num : (0 : ℝ) < 0.5) A1) B1) hsin
  | ASA =>
    simp only [calculateTriangleResult] at h ⊢
    obtain ⟨qa, qb, qc, ha, hb, hc, hpa, hpb, hpc, hab⟩ := isASAValid_elim h
    rw [ha, hb, hc] at h ⊢
    refine ⟨?_, fun hx => absurd hx (by decide)⟩
    rw [if_pos h]
    simp only [calculateAreaASA, if_pos h, jreal_some]
    have A0 : (0 : ℝ) < (qa : ℝ) := by exact_mod_cast hpa
    have B0 : (0 : ℝ) < (qb : ℝ) := by exact_mod_cast hpb
    have C0 : (0 : ℝ) < (qc : ℝ) := by exact_mod_cast hpc
    have AB : (qa : ℝ) + (qb : ℝ) < 180 := by exact_mod_cast hab
    have hsinA := sin_degToRad_pos A0 (by linarith)
    have hsinB := sin_degToRad_pos B0 (by linarith)
    have hsinC := sin_degToRad_pos
      (show (0 : ℝ) < 180 - (qa : ℝ) - (qb : ℝ) by linarith)
      (show (180 : ℝ) - (qa : ℝ) - (qb : ℝ) < 180 by linarith)
    have hside : (0 : ℝ) < ((qc : ℝ) * Real.sin (degToRad (qa : ℝ))) /
        Real.sin (degToRad (180 - (qa : ℝ) - (qb : ℝ))) :=
      div_pos (mul_pos C0 hsinA) hsinC
    exact mul_pos (mul_pos (mul_pos (by norm_num : (0 : ℝ) < 0.5) hside) C0) hsinB
  | BaseHeight =>
    simp only [calculateTriangleResult] at h ⊢
    obtain ⟨qa, qb, ha, hb, hpa, hpb⟩ := isBaseHeightValid_elim h
    rw [ha, hb] at h ⊢
    refine ⟨?_, fun hx => absurd hx (by decide)⟩
    rw [if_pos h]
    simp only [calculateAreaBaseHeight, if_pos h, jreal_some]
    have A1 : (0 : ℝ) < (qa : ℝ) := by exact_mod_cast hpa
    have B1 : (0 : ℝ) < (qb : ℝ) := by exact_mod_cast hpb
    exact mul_pos (mul_pos (by norm_num : (0 : ℝ) < 0.5) A1) B1
  | Coordinates =>
    simp only [calculateTriangleResult] at h ⊢
    have hlt := areCoordinatesValid_lt h
    have key : (1e-9 : ℝ) < calculateAreaCoordinates
        (parseFloat (orZero inputs.p1x)) (parseFloat (orZero inputs.p1y))
        (parseFloat (orZero inputs.p2x)) (parseFloat (orZero inputs.p2y))
        (parseFloat (orZero inputs.p3x)) (parseFloat (orZero inputs.p3y)) := by
      simp only [calculateAreaCoordinates, if_pos h]
      exact hlt
    rw [if_pos h]
    exact ⟨by linarith [key], fun _ => key⟩

/-- Witness for C10 at the concrete valid base-and-height spec (2, 3). -/
theorem valid_implies_positive_area_witness :
    (calculateTriangleResult baseHeight23 Unit.m 0).isValid = true ∧
    (0 < (calculateTriangleResult baseHeight23 Unit.m 0).area ∧
      (baseHeight23.method = CalculationMethod.Coordinates →
        (1e-9 : ℝ) < (calculateTriangleResult baseHeight23 Unit.m 0).area)) := by
  have h2 : parseFloat (orZero (some ("2"))) = some 2 := by
    have h := parseFloat_nat ("2") 2 (by decide)
    simpa [orZero] using h
  have h3 : parseFloat (orZero (some ("3"))) = some 3 := by
    have h := parseFloat_nat ("3") 3 (by decide)
    simpa [orZero] using h
  have hv : (calculateTriangleResult baseHeight23 Unit.m 0).isValid = true := by
    simp only [baseHeight23, calculateTriangleResult, h2, h3]
    norm_num [isBaseHeightValid, jgt]
  exact ⟨hv, valid_implies_positive_area baseHeight23 Unit.m 0 hv⟩

lemma cross2_self (p : Point) : cross2 p p = 0 := by
  simp [cross2]

lemma cross2_swap (p q : Point) : cross2 p q = -cross2 q p := by
  unfold cross2
  ring

lemma getLastD_concat (l : List Point) (a d : Point) : (l ++ [a]).getLastD d = a := by
  induction l generalizing d with
  | nil => rfl
  | cons x xs ih =>
    rw [List.cons_append, List.getLastD_cons]
    exact ih x

lemma getLastD_reverse (l : List Point) (d : Point) :
    (l.reverse).getLastD d = l.headD d := by
  cases l with
  | nil => rfl
  | cons x t =>
    rw [List.reverse_cons, getLastD_concat]
    rfl

lemma headD_concat (l : List Point) (a d : Point) :
    (l ++ [a]).headD d = l.headD a := by
  cases l <;> rfl

lemma headD_reverse (l : List Point) (d : Point) :
    (l.reverse).headD d = l.getLastD d := by
  induction l generalizing d with
  | nil => rfl
  | cons x t ih =>
    rw [List.reverse_cons, headD_concat, List.getLastD_cons]
    exact ih x

lemma pathSum_concat (l : List Point) (a : Point) :
    pathSum (l ++ [a]) = pathSum l + cross2 (l.getLastD a) a := by
  induction l with
  | nil => simp [pathSum, List.getLastD, cross2_self]
  | cons x xs ih =>
    cases xs with
    | nil => simp [pathSum, List.getLastD]
    | cons y ys =>
      rw [List.cons_append, List.cons_append]
      rw [show pathSum (x :: y :: (ys ++ [a])) = cross2 x y + pathSum (y :: (ys ++ [a]))
        from rfl]
      rw [show (y :: ys) ++ [a] = y :: (ys ++ [a]) from rfl] at ih
      rw [ih]
      rw [show pathSum (x :: y :: ys) = cross2 x y + pathSum (y :: ys) from rfl]
      simp only [List.getLastD_cons]
      ring

lemma pathSum_reverse (l : List Point) : pathSum l.reverse = -pathSum l := by
  induction l with
  | nil => simp [pathSum]
  | cons x t ih =>
    rw [List.reverse_cons, pathSum_concat, ih, getLastD_reverse]
    cases t with
    | nil => simp [pathSum, cross2_self]
    | cons y ys =>
      rw [show (y :: ys).headD x = y from rfl]
      rw [show pathSum (x :: y :: ys) = cross2 x y + pathSum (y :: ys) from rfl]
      rw [cross2_swap y x]
      ring

lemma shoelaceSum_reverse (l : List Point) : shoelaceSum l.reverse = -shoelaceSum l := by
  unfold shoelaceSum
  rw [pathSum_reverse, getLastD_reverse, headD_reverse, cross2_swap]
  ring

lemma earClip_reverse_eq (P : List Point) (h : shoelaceSum P ≠ 0) :
    earClippingTriangulation P.reverse = earClippingTriangulation P := by
  simp only [earClippingTriangulation]
  rw [List.length_reverse, shoelaceSum_reverse]
  by_cases h3 : P.length < 3
  · simp [h3]
  · simp only [if_neg h3]
    rcases lt_or_gt_of_ne h with hneg | hpos
    · rw [if_pos (by linarith : 0 < -shoelaceSum P),
        if_neg (by linarith : ¬ 0 < shoelaceSum P), List.reverse_reverse]
    · rw [if_neg (by linarith : ¬ 0 < -shoelaceSum P), if_pos hpos]

/-- C4 (winding invariance): for a polygon with nonzero shoelace sum —
every simple polygon has one — the triangulations of the polygon and of
its vertex-reversed counterpart have the same multiset of unsigned
triangle areas.  The winding normalization maps both inputs to the same
working vertex list (the reversal flips the sign of the shoelace sum), so
the two runs in fact produce identical triangle lists. -/
theorem earClip_reverse_same_areas (P : List Point) (hn : 3 ≤ P.length)
    (h : shoelaceSum P ≠ 0) :
    (((earClippingTriangulation P.reverse).map triArea : List ℚ) : Multiset ℚ)
      = (((earClippingTriangulation P).map triArea : List ℚ) : Multiset ℚ) := by
  rw [earClip_reverse_eq P h]

/-- Witness for C4 at the quadrilateral (0,0), (2,0), (2,2), (0,2). -/
theorem earClip_reverse_same_areas_witness :
    (3 ≤ quadEx.length ∧ shoelaceSum quadEx ≠ 0) ∧
    (((earClippingTriangulation quadEx.reverse).map triArea : List ℚ) : Multiset ℚ)
      = (((earClippingTriangulation quadEx).map triArea : List ℚ) : Multiset ℚ) := by
  have h8 : shoelaceSum quadEx = 8 := by
    norm_num [quadEx, shoelaceSum, pathSum, cross2, pZero]
  refine ⟨⟨by norm_num [quadEx], by rw [h8]; norm_num⟩, ?_⟩
  exact earClip_reverse_same_areas quadEx (by norm_num [quadEx]) (by rw [h8]; norm_num)

lemma findEar_lt {v : List Point} {idx : List ℕ} {i : ℕ} {t : Tri}
    (h : findEar v idx = some (i, t)) : i < idx.length := by
  obtain ⟨a, ha, hfa⟩ := List.exists_of_findSome?_eq_some h
  cases he : isEarAt v idx a with
  | none => rw [he] at hfa; simp at hfa
  | some tr =>
    rw [he] at hfa
    simp at hfa
    obtain ⟨hai, -⟩ := hfa
    subst hai
    exact List.mem_range.mp ha

lemma clipLoop_spec (v : List Point) :
    ∀ (fuel : ℕ) (idx : List ℕ) (tris : List Tri), 3 ≤ idx.length →
      3 ≤ (clipLoop v fuel idx tris).1.length ∧
      (clipLoop v fuel idx tris).2.length + (clipLoop v fuel idx tris).1.length
        = tris.length + idx.length := by
  intro fuel
  induction fuel with
  | zero =>
    intro idx tris h3
    exact ⟨h3, rfl⟩
  | succ n ih =>
    intro idx tris h3
    rw [clipLoop]
    by_cases hlen : 3 < idx.length
    · rw [if_pos hlen]
      cases hfe : findEar v idx with
      | none => exact ⟨h3, rfl⟩
      | some pr =>
        obtain ⟨i, t⟩ := pr
        have hi : i < idx.length := findEar_lt hfe
        have hlen' : (idx.eraseIdx i).length = idx.length - 1 := by
          rw [List.length_eraseIdx]
          simp [hi]
        obtain ⟨ha, hb⟩ := ih (idx.eraseIdx i) (tris ++ [t]) (by omega)
        refine ⟨ha, ?_⟩
        rw [hb, List.length_append, hlen']
        simp only [List.length_cons, List.length_nil]
        omega
    · rw [if_neg hlen]
      exact ⟨h3, rfl⟩

/-- C9: for every input polygon with at least 3 points the triangulator
returns at least 1 and at most n−2 triangles: each loop pass removes one
index (never dropping below 3 remaining) and emits one triangle, and the
final triangle of the first three remaining indices is pushed
unconditionally, even when a pass finds no ear. -/
theorem earClip_triangle_count_bounds (P : List Point) (h : 3 ≤ P.length) :
    1 ≤ (earClippingTriangulation P).length ∧
      (earClippingTriangulation P).length ≤ P.length - 2 := by
  have h3 : ¬ P.length < 3 := by omega
  simp only [earClippingTriangulation, if_neg h3]
  set verts := if 0 < shoelaceSum P then P.reverse else P with hverts
  have hvl : verts.length = P.length := by
    rw [hverts]
    split <;> simp
  obtain ⟨h1, h2⟩ := clipLoop_spec verts (2 * P.length) (List.range verts.length) []
    (by rw [List.length_range, hvl]; omega)
  simp only [List.length_append, List.length_cons, List.length_nil]
  simp only [List.length_nil, List.length_range, hvl] at h1 h2 ⊢
  omega

/-- Witness for C9 at the quadrilateral (0,0), (2,0), (2,2), (0,2). -/
theorem earClip_triangle_count_bounds_witness :
    3 ≤ quadEx.length ∧
    (1 ≤ (earClippingTriangulation quadEx).length ∧
      (earClippingTriangulation quadEx).length ≤ quadEx.length - 2) :=
  ⟨by norm_num [quadEx], earClip_triangle_count_bounds quadEx (by norm_num [quadEx])⟩

end Survey
